import Mathlib

/-
Verification of the Rehau NEA Smart 2 MQTT client
(custom_components/rehau_nea_smart_2/rehau_mqtt_client).

The Python source is embedded shallowly: the dict/pydantic data model becomes
Lean structures, stateful methods become explicit state-passing functions,
fallible code returns Except, and exception handlers become case analysis on
the result of the external call.  Each numbered claim about the client is then
stated and settled as a theorem over these definitions.
-/

set_option maxHeartbeats 1000000

namespace RehauMqtt

/-! ## Data model (models/installation.py, plus the live-telemetry fields that
MqttClient.update_live_data stores directly on the installation dict) -/

structure Cooling where
  normal : Int
  reduced : Int
deriving DecidableEq, Repr

structure Heating where
  normal : Int
  reduced : Int
  standby : Int
deriving DecidableEq, Repr

structure Setpoints where
  cooling : Cooling
  heating : Heating
  min : Int
  max : Int
deriving DecidableEq, Repr

structure Channel where
  id : String
  target_temperature : Int
  current_temperature : Int
  energy_level : Int
  operating_mode : Int
  humidity : Int
  demand : Int
  setpoints : Setpoints
deriving DecidableEq, Repr

structure Zone where
  id : String
  name : String
  number : Int
  channels : List Channel
deriving DecidableEq, Repr

structure Group where
  id : String
  group_name : String
  zones : List Zone
deriving DecidableEq, Repr

structure Installation where
  id : String
  unique : String
  global_energy_level : Int
  connected : Bool
  operating_mode : Int
  groups : List Group
  outside_temp : Int
  outsideTempFiltered : Int
  pumpOn : Int
  mixed_circuit1_setpoint : Int
  mixed_circuit1_supply : Int
  mixed_circuit1_return : Int
  mixed_circuit1_opening : Int
deriving DecidableEq, Repr

/-! ## C1: replace_wildcards (MqttClient.py lines 216-233)

The Python method builds a dict keyed by the literal strings and substitutes
with a regex whose flags include re.I:

    replacements = \x7b "\x7bid\x7d": unique, "\x7bemail\x7d": email \x7d
    re.sub(r"\x7bid\x7d|\x7bemail\x7d", fun m => replacements[m.group(0)], topic, flags=re.I)

The scan below replicates re.sub with that pattern: at each position the
alternatives are tried in order, case-insensitively; on a match the callback
looks up the exact matched text in the replacements dict, which raises
KeyError (modelled as Except.error) when the matched text is not exactly
lowercase. -/

/-- Case-insensitive character comparison, as re.I performs on ASCII. -/
def lowerEq (a b : Char) : Bool := a.toLower == b.toLower

/-- Case-insensitive test that the pattern occurs at the head of the input. -/
def ciStartsWith : List Char → List Char → Bool
  | [], _ => true
  | _ :: _, [] => false
  | p :: ps, c :: cs => lowerEq p c && ciStartsWith ps cs

/-- The replacements-dict lookup performed by the re.sub callback:
keyed by the exact matched text; any other matched text raises KeyError. -/
def wildcardKey (uniq email : String) (matched : List Char) : Except Unit (List Char) :=
  if matched = "{id}".data then Except.ok uniq.data
  else if matched = "{email}".data then Except.ok email.data
  else Except.error ()

/-- The left-to-right scan of re.sub over the alternation of the two
placeholder patterns, matching case-insensitively.  The matched text is
consumed and the callback result (or its KeyError) is spliced in. -/
def substWildcards (uniq email : String) : List Char → Except Unit (List Char)
  | [] => Except.ok []
  | c :: cs =>
    if ciStartsWith "{id}".data (c :: cs) then
      match cs with
      | c1 :: c2 :: c3 :: rest =>
        match wildcardKey uniq email [c, c1, c2, c3] with
        | Except.ok rep =>
          match substWildcards uniq email rest with
          | Except.ok r => Except.ok (rep ++ r)
          | Except.error e => Except.error e
        | Except.error e => Except.error e
      | _ => Except.error ()
    else if ciStartsWith "{email}".data (c :: cs) then
      match cs with
      | c1 :: c2 :: c3 :: c4 :: c5 :: c6 :: rest =>
        match wildcardKey uniq email [c, c1, c2, c3, c4, c5, c6] with
        | Except.ok rep =>
          match substWildcards uniq email rest with
          | Except.ok r => Except.ok (rep ++ r)
          | Except.error e => Except.error e
        | Except.error e => Except.error e
      | _ => Except.error ()
    else
      match substWildcards uniq email cs with
      | Except.ok r => Except.ok (c :: r)
      | Except.error e => Except.error e

/-- MqttClient.replace_wildcards: substitute the topic placeholders with the
current installation unique and the authenticated login.  An uncaught KeyError
from the substitution callback surfaces as Except.error. -/
def replace_wildcards (uniq email topic : String) : Except Unit String :=
  match substWildcards uniq email topic.data with
  | Except.ok r => Except.ok (String.mk r)
  | Except.error e => Except.error e

/-- C1: the claim says case variants such as \x7bID\x7d are replaced like \x7bid\x7d.  On the
code, a lowercase template is fully substituted, but the same template with an
uppercase placeholder makes the replacement callback raise KeyError: the regex
matches case-insensitively while the replacements dict is keyed by the exact
lowercase text.  Both installation unique and user login are set here. -/
theorem replace_wildcards_case_bug :
    replace_wildcards "inst1" "a@b.c" "app/{id}/{email}" = Except.ok "app/inst1/a@b.c" ∧
    replace_wildcards "inst1" "a@b.c" "app/{ID}/{email}" = Except.error () := by
  exact ⟨rfl, rfl⟩

/-! ## C2: refresh_token (MqttClient.py lines 323-333)

The method awaits the external refresh call inside a try block whose only
handler is for MqttClientAuthenticationError; that handler falls back to
auth_user.  A MqttClientCommunicationError raised by the refresh call matches
no handler and propagates.  The token dict carries access_token (key may be
absent), refresh_token and expires_in. -/

structure TokenData where
  access_token : Option String
  refresh_token : String
  expires_in : Int
deriving DecidableEq, Repr

/-- Result of the external refresh(refresh_token) call (handlers module):
per its contract it returns new token data or fails with an authentication
or a communication error. -/
inductive ExtRefreshResult
  | ok (td : TokenData)
  | authError (msg : String)
  | commError (msg : String)
deriving DecidableEq, Repr

/-- What refresh_token does, observed at its boundary. -/
inductive RefreshOutcome
  | reconnected (td : TokenData)
  | fullAuthFallback
  | raisedCommunication (msg : String)
deriving DecidableEq, Repr

/-- MqttClient.refresh_token: the try block stores the new token and
reconnects on success; the except clause for authentication errors awaits
auth_user; a communication error has no matching except clause, so the
exception leaves the method. -/
def refresh_token : ExtRefreshResult → RefreshOutcome
  | ExtRefreshResult.ok td => RefreshOutcome.reconnected td
  | ExtRefreshResult.authError _ => RefreshOutcome.fullAuthFallback
  | ExtRefreshResult.commError m => RefreshOutcome.raisedCommunication m

/-- C2 counterexample: when the external refresh call fails with a
communication error, refresh_token does not return normally: the exception
escalates to its caller, contradicting the claim that communication errors
are logged and not escalated. -/
theorem refresh_token_comm_error_escalates :
    refresh_token (ExtRefreshResult.commError "network down") =
      RefreshOutcome.raisedCommunication "network down" := rfl

/-- C2 amended: a successful refresh stores the token and reconnects; an
AuthenticationError falls back to full authentication via auth_user; a
CommunicationError is not caught inside refresh_token and propagates to its
caller. -/
theorem refresh_token_spec :
    (∀ td, refresh_token (ExtRefreshResult.ok td) = RefreshOutcome.reconnected td) ∧
    (∀ m, refresh_token (ExtRefreshResult.authError m) = RefreshOutcome.fullAuthFallback) ∧
    (∀ m, refresh_token (ExtRefreshResult.commError m) =
      RefreshOutcome.raisedCommunication m) :=
  ⟨fun _ => rfl, fun _ => rfl, fun _ => rfl⟩

/-! ## C7: start_scheduler_task (MqttClient.py lines 550-565)

Three aiocron.crontab registrations are executed.  In the access_token branch
the expiry delay expires_in - 300 is computed and logged, but the crontab call
that would register the token-refresh job is commented out in the source, so
no fourth job is ever registered. -/

inductive JobKind
  | refreshHttpJob
  | refreshLiveDataJob
  | referentialsJob
  | tokenRefreshJob
deriving DecidableEq, Repr

structure CronJob where
  schedule : String
  kind : JobKind
deriving DecidableEq, Repr

/-- The periodic jobs registered by start_scheduler_task.  Both branches of
the access_token check register nothing further: the some branch only logs
the computed expiry delay (its crontab line is commented out), the none
branch only logs an error. -/
def start_scheduler_jobs (td : TokenData) : List CronJob :=
  let base : List CronJob :=
    [ { schedule := "*/1 * * * *", kind := JobKind.refreshHttpJob },
      { schedule := "*/1 * * * *", kind := JobKind.refreshLiveDataJob },
      { schedule := "*/5 * * * *", kind := JobKind.referentialsJob } ]
  match td.access_token with
  | some _ => base
  | none => base

/-- The token-expiry safety margin computed (and only logged) in the
access_token branch of start_scheduler_task. -/
def token_expiry_margin (td : TokenData) : Int := td.expires_in - 300

def tdSample : TokenData :=
  { access_token := some "tok", refresh_token := "rt", expires_in := 3600 }

/-- C7 counterexample: with token data that does carry an access token, the
scheduler start registers three jobs, not four, and no token-refresh job is
among them. -/
theorem scheduler_jobs_counterexample :
    (start_scheduler_jobs tdSample).length ≠ 4 ∧
    (start_scheduler_jobs tdSample).countP
      (fun j => j.kind == JobKind.tokenRefreshJob) = 0 := by
  exact ⟨by decide, by decide⟩

/-- C7 amended: every scheduler start registers exactly three periodic jobs:
the HTTP user poll every minute, the live-data request publish every minute
and the referentials request publish every five minutes; the token-expiry
delay expires_in - 300 is computed but the registration of a token-refresh
job is commented out, so no such job is registered. -/
theorem start_scheduler_jobs_spec (td : TokenData) :
    start_scheduler_jobs td =
      [ { schedule := "*/1 * * * *", kind := JobKind.refreshHttpJob },
        { schedule := "*/1 * * * *", kind := JobKind.refreshLiveDataJob },
        { schedule := "*/5 * * * *", kind := JobKind.referentialsJob } ] ∧
    token_expiry_margin td = td.expires_in - 300 := by
  cases h : td.access_token <;> simp [start_scheduler_jobs, token_expiry_margin, h]

/-! ## C8: send_message (MqttClient.py lines 243-266)

One publish attempt is made; on failure the consecutive-failure counter is
incremented and, once it exceeds 5, an error is reported (logged); on success
the counter is reset to 0.  The message id is returned in all cases: there is
no message-level retry. -/

structure SendResult where
  number_of_message_failures : Nat
  reported_error : Bool
  publish_attempts : Nat
deriving DecidableEq, Repr

/-- MqttClient.send_message, observed on the failure counter: publish_failed
is the result != MQTT_ERR_SUCCESS test on the single publish call. -/
def send_message (publish_failed : Bool) (failures : Nat) : SendResult :=
  if publish_failed then
    let f := failures + 1
    { number_of_message_failures := f, reported_error := decide (f > 5), publish_attempts := 1 }
  else
    { number_of_message_failures := 0, reported_error := false, publish_attempts := 1 }

/-- The counter after k consecutive failed publishes starting from n. -/
def failStreak : Nat → Nat → Nat
  | 0, n => n
  | k + 1, n => (send_message true (failStreak k n)).number_of_message_failures

/-- C8: each failed publish increments the consecutive-failure counter and
reports an error exactly when the count exceeds 5, each successful publish
resets the counter to 0, a single publish attempt is made in either case (no
message-level retry), and the counter keeps accumulating across consecutive
failures: reporting does not reset it. -/
theorem send_message_failure_tracking (n : Nat) :
    send_message true n =
      { number_of_message_failures := n + 1, reported_error := decide (n + 1 > 5),
        publish_attempts := 1 } ∧
    send_message false n =
      { number_of_message_failures := 0, reported_error := false, publish_attempts := 1 } ∧
    (∀ k, failStreak k n = n + k) := by
  refine ⟨rfl, rfl, ?_⟩
  intro k
  induction k with
  | zero => rfl
  | succ k ih => simp [failStreak, send_message, ih, Nat.add_assoc]

/-! ## C9: observer registry (MqttClient.py lines 522-542)

self.callbacks is a Python set; register_callback is set.add, remove_callback
is set.discard, and publish_updates calls each member once.  Callbacks are
identified here by a natural number standing for function identity. -/

/-- MqttClient.register_callback: set.add. -/
def register_callback (callbacks : Finset ℕ) (c : ℕ) : Finset ℕ := insert c callbacks

/-- MqttClient.remove_callback: set.discard (no error when absent). -/
def remove_callback (callbacks : Finset ℕ) (c : ℕ) : Finset ℕ := callbacks.erase c

/-- Number of times publish_updates invokes a given callback during one
publish: each member of the set is called exactly once. -/
def publish_update_count (callbacks : Finset ℕ) (c : ℕ) : ℕ :=
  if c ∈ callbacks then 1 else 0

/-- C9: registering the same callback twice equals registering it once, a
publish after registration invokes the callback exactly once, and removing a
callback that is not registered leaves the set unchanged. -/
theorem callback_set_semantics (s : Finset ℕ) (c d : ℕ) (h : d ∉ s) :
    register_callback (register_callback s c) c = register_callback s c ∧
    publish_update_count (register_callback s c) c = 1 ∧
    remove_callback s d = s := by
  refine ⟨?_, ?_, ?_⟩
  · simp [register_callback]
  · simp [publish_update_count, register_callback]
  · simp [remove_callback, Finset.erase_eq_self.mpr h]

/-- C9 witness: the properties at the empty registry with callbacks 0 and 1. -/
theorem callback_set_semantics_witness :
    register_callback (register_callback ∅ 0) 0 = register_callback ∅ 0 ∧
    publish_update_count (register_callback (∅ : Finset ℕ) 0) 0 = 1 ∧
    remove_callback ∅ 1 = (∅ : Finset ℕ) :=
  callback_set_semantics ∅ 0 1 (by decide)

/-! ## C4 and C10: connection lifecycle
(on_disconnect lines 133-148, disconnect lines 276-285, stop_scheduler lines
571-577, refresh_http lines 183-188)

The connection-lifecycle fields of the client object.  topics holds the
resolved configured subscription topics (subscribe_topics after wildcard
resolution); subscribed the currently active broker subscriptions. -/

def MAX_CONNECT_RETRIES : Nat := 5

structure SessionState where
  number_of_retries : Nat
  topics : List String
  subscribed : List String
  connected : Bool
  loop_running : Bool
  scheduler_running : Bool
  stop_scheduler_loop : Bool
deriving DecidableEq, Repr

/-- MqttClient.stop_scheduler: sets the stop flag and cancels the task. -/
def stop_scheduler (s : SessionState) : SessionState :=
  { s with stop_scheduler_loop := true, scheduler_running := false }

/-- Effect on the subscription list of unsubscribing each configured topic in
turn, as the loop in disconnect does. -/
def unsubAll : List String → List String → List String
  | [], subs => subs
  | t :: ts, subs => unsubAll ts (subs.filter (fun x => x != t))

/-- Effect on the subscription list of send_topics: for each configured topic,
unsubscribe then subscribe. -/
def resubAll : List String → List String → List String
  | [], subs => subs
  | t :: ts, subs => resubAll ts (subs.filter (fun x => x != t) ++ [t])

/-- MqttClient.disconnect: unsubscribe every configured topic, close the
connection, stop the event loop, stop the scheduler. -/
def disconnect (s : SessionState) : SessionState :=
  stop_scheduler
    { s with
      subscribed := unsubAll s.topics s.subscribed,
      connected := false,
      loop_running := false }

/-- MqttClient.on_disconnect: a nonzero result code increments the retry
counter; at or below MAX_CONNECT_RETRIES the handler only logs; above it the
session is torn down via disconnect. -/
def on_disconnect (s : SessionState) (rc : Nat) : SessionState :=
  if rc ≠ 0 then
    let s' := { s with number_of_retries := s.number_of_retries + 1 }
    if s'.number_of_retries ≤ MAX_CONNECT_RETRIES then s'
    else disconnect s'
  else s

/-- MqttClient.refresh_http: reset the retry counter, re-send subscriptions,
then poll the user over HTTP (the poll does not touch these fields). -/
def refresh_http (s : SessionState) : SessionState :=
  { s with
    number_of_retries := 0,
    subscribed := resubAll s.topics s.subscribed }

/-- Iterated unexpected disconnects (nonzero result code). -/
def discIter (n : Nat) (s : SessionState) : SessionState :=
  Nat.iterate (fun st => on_disconnect st 1) n s

theorem mem_unsubAll (x : String) (ts : List String) :
    ∀ subs, x ∈ unsubAll ts subs → x ∈ subs := by
  induction ts with
  | nil => intro subs h; simpa [unsubAll] using h
  | cons t ts ih =>
    intro subs h
    simp only [unsubAll] at h
    exact (List.mem_filter.mp (ih _ h)).1

theorem unsubAll_not_mem (t : String) (ts : List String) (h : t ∈ ts) :
    ∀ subs, t ∉ unsubAll ts subs := by
  induction ts with
  | nil => simp at h
  | cons a ts ih =>
    intro subs hmem
    simp only [unsubAll] at hmem
    rcases List.mem_cons.mp h with rfl | hts
    · have h2 := mem_unsubAll _ _ _ hmem
      have h3 := (List.mem_filter.mp h2).2
      simp at h3
    · exact ih hts _ hmem

/-- C4: starting from a retry counter of zero, each of the first five
unexpected disconnects only increments the counter (the state is otherwise
untouched: no teardown); the sixth performs the full disconnect: every
configured topic is unsubscribed, the connection is closed, the event loop and
the scheduler are stopped and stop_scheduler_loop becomes true. -/
theorem disconnect_after_six (s : SessionState) (h : s.number_of_retries = 0) :
    (∀ n, n ≤ 5 → discIter n s = { s with number_of_retries := n }) ∧
    discIter 6 s = disconnect { s with number_of_retries := 6 } ∧
    (∀ t ∈ s.topics, t ∉ (discIter 6 s).subscribed) ∧
    (discIter 6 s).connected = false ∧
    (discIter 6 s).loop_running = false ∧
    (discIter 6 s).scheduler_running = false ∧
    (discIter 6 s).stop_scheduler_loop = true := by
  obtain ⟨r, tp, sb, c, lr, sr, st⟩ := s
  have h' : r = 0 := h
  subst h'
  refine ⟨?_, rfl, ?_, rfl, rfl, rfl, rfl⟩
  · intro n hn
    interval_cases n <;> rfl
  · intro t ht
    exact unsubAll_not_mem t tp ht sb

def s0 : SessionState :=
  { number_of_retries := 0, topics := ["t1", "t2"], subscribed := ["t1", "t2"],
    connected := true, loop_running := true, scheduler_running := true,
    stop_scheduler_loop := false }

/-- C4 witness: on a concrete session, three unexpected disconnects only move
the counter to 3, and after the sixth the stop flag is set. -/
theorem disconnect_after_six_witness :
    discIter 3 s0 = { s0 with number_of_retries := 3 } ∧
    (discIter 6 s0).stop_scheduler_loop = true :=
  ⟨(disconnect_after_six s0 rfl).1 3 (by decide),
   (disconnect_after_six s0 rfl).2.2.2.2.2.2⟩

/-! ### C10: the retry counter counts only disconnects since the last
periodic HTTP refresh.  Only on_disconnect writes the counter upward and only
refresh_http (and refresh) reset it; no other method touches it. -/

inductive SessionEvent
  | disc (rc : Nat)
  | refreshHttpTick
deriving DecidableEq, Repr

/-- One step of the session, driven by a disconnect callback or a periodic
refresh_http tick. -/
def session_step (s : SessionState) : SessionEvent → SessionState
  | SessionEvent.disc rc => on_disconnect s rc
  | SessionEvent.refreshHttpTick => refresh_http s

def run_events (s : SessionState) (es : List SessionEvent) : SessionState :=
  es.foldl session_step s

/-- Number of unexpected disconnects (nonzero result code) in an event list. -/
def discCount (es : List SessionEvent) : Nat :=
  es.countP fun e =>
    match e with
    | SessionEvent.disc rc => rc != 0
    | SessionEvent.refreshHttpTick => false

theorem on_disconnect_retries (s : SessionState) (rc : Nat) :
    (on_disconnect s rc).number_of_retries =
      s.number_of_retries + (if rc ≠ 0 then 1 else 0) := by
  by_cases h : rc ≠ 0
  · simp only [on_disconnect, if_pos h]
    split
    · rfl
    · rfl
  · simp only [on_disconnect, if_neg h]
    omega

theorem retries_no_refresh (es : List SessionEvent)
    (h : ∀ e ∈ es, e ≠ SessionEvent.refreshHttpTick) :
    ∀ s : SessionState,
      (run_events s es).number_of_retries = s.number_of_retries + discCount es := by
  induction es with
  | nil => intro s; simp [run_events, discCount]
  | cons e es ih =>
    intro s
    have he : e ≠ SessionEvent.refreshHttpTick := h e (List.mem_cons_self e es)
    have hrest : ∀ e ∈ es, e ≠ SessionEvent.refreshHttpTick :=
      fun x hx => h x (List.mem_cons_of_mem e hx)
    cases e with
    | refreshHttpTick => exact absurd rfl he
    | disc rc =>
      have hstep : run_events s (SessionEvent.disc rc :: es) =
          run_events (on_disconnect s rc) es := rfl
      rw [hstep, ih hrest, on_disconnect_retries]
      by_cases hrc : rc = 0
      · subst hrc
        simp [discCount, List.countP_cons]
      · have h1 : (if rc ≠ 0 then 1 else 0) = 1 := if_pos hrc
        have h2 : discCount (SessionEvent.disc rc :: es) = discCount es + 1 := by
          simp [discCount, List.countP_cons, hrc]
        rw [h1, h2]
        omega

/-- C10: after any event trace that ends with a refresh_http tick followed by
refresh-free events, the retry counter equals the number of unexpected
disconnects that occurred after that tick: the counter never accumulates
across periodic refreshes. -/
theorem retries_since_last_refresh (s : SessionState) (t1 t2 : List SessionEvent)
    (h : ∀ e ∈ t2, e ≠ SessionEvent.refreshHttpTick) :
    (run_events s (t1 ++ SessionEvent.refreshHttpTick :: t2)).number_of_retries =
      discCount t2 := by
  have hsplit : run_events s (t1 ++ SessionEvent.refreshHttpTick :: t2) =
      run_events (refresh_http (run_events s t1)) t2 := by
    simp [run_events, List.foldl_append, session_step]
  rw [hsplit, retries_no_refresh t2 h]
  simp [refresh_http]

/-- C10 witness: a concrete trace with two disconnects before the refresh and
three events after it, one of which is an expected (rc = 0) disconnect. -/
theorem retries_since_last_refresh_witness :
    (run_events s0 ([SessionEvent.disc 1, SessionEvent.disc 1] ++
        SessionEvent.refreshHttpTick ::
          [SessionEvent.disc 1, SessionEvent.disc 0, SessionEvent.disc 1])).number_of_retries =
      discCount [SessionEvent.disc 1, SessionEvent.disc 0, SessionEvent.disc 1] :=
  retries_since_last_refresh s0 _ _ (by decide)

/-! ## C3 and C6: update_channel (lines 484-519) and update_live_data
(lines 462-482)

Both methods locate the first installation whose unique equals the payload's
install_id with next(...), raise MqttClientError if there is none, mutate that
installation in place and call publish_updates once.  findSplit models the
next(...) lookup together with the in-place mutation: it returns the prefix of
non-matching installations, the first match, and the remainder. -/

/-- First installation matching the unique, with its surrounding context. -/
def findSplit (u : String) :
    List Installation → Option (List Installation × Installation × List Installation)
  | [] => none
  | i :: rest =>
    if i.unique == u then some ([], i, rest)
    else (findSplit u rest).map (fun t => (i :: t.1, t.2.1, t.2.2))

theorem findSplit_none_iff (u : String) (l : List Installation) :
    findSplit u l = none ↔ ∀ i ∈ l, (i.unique == u) = false := by
  induction l with
  | nil => simp [findSplit]
  | cons i rest ih =>
    cases h : (i.unique == u) with
    | true =>
      constructor
      · intro hnone
        rw [findSplit, if_pos h] at hnone
        exact absurd hnone (by simp)
      · intro hall
        have hh := hall i (List.mem_cons_self i rest)
        rw [h] at hh
        exact absurd hh (by simp)
    | false =>
      rw [findSplit, if_neg (by simp [h]), Option.map_eq_none', ih]
      constructor
      · intro hall i' hmem
        rcases List.mem_cons.mp hmem with rfl | hmem'
        · exact h
        · exact hall i' hmem'
      · intro hall i' hmem
        exact hall i' (List.mem_cons_of_mem _ hmem)

theorem findSplit_some_eq (u : String) (l : List Installation) :
    ∀ pre inst post, findSplit u l = some (pre, inst, post) →
      l = pre ++ inst :: post ∧ (∀ i ∈ pre, (i.unique == u) = false) ∧
        (inst.unique == u) = true := by
  induction l with
  | nil => intro pre inst post h; simp [findSplit] at h
  | cons j rest ih =>
    intro pre inst post h
    cases hj : (j.unique == u) with
    | true =>
      rw [findSplit, if_pos hj] at h
      injection h with h'
      have hp : ([] : List Installation) = pre := congrArg Prod.fst h'
      have hi : j = inst := congrArg (fun t => t.2.1) h'
      have hq : rest = post := congrArg (fun t => t.2.2) h'
      subst hp; subst hi; subst hq
      exact ⟨rfl, by simp, hj⟩
    | false =>
      rw [findSplit, if_neg (by simp [hj])] at h
      rw [Option.map_eq_some'] at h
      obtain ⟨⟨p0, i0, q0⟩, h0, hEq⟩ := h
      have hp : j :: p0 = pre := congrArg Prod.fst hEq
      have hi : i0 = inst := congrArg (fun t => t.2.1) hEq
      have hq : q0 = post := congrArg (fun t => t.2.2) hEq
      subst hp; subst hi; subst hq
      obtain ⟨hl, hpre, hm⟩ := ih p0 i0 q0 h0
      refine ⟨by rw [List.cons_append, ← hl], ?_, hm⟩
      intro i hmem
      rcases List.mem_cons.mp hmem with rfl | hmem'
      · exact hj
      · exact hpre i hmem'

/-- The triple loop of update_channel over one zone's channel list: the first
channel whose id matches gets its energy_level and target_temperature
overwritten, and the scan stops. -/
def updCh (cid : String) (m s : Int) : List Channel → Option (List Channel)
  | [] => none
  | ch :: rest =>
    if ch.id == cid then
      some ({ ch with energy_level := m, target_temperature := s } :: rest)
    else
      (updCh cid m s rest).map (fun l => ch :: l)

/-- The loop over a group's zones. -/
def updZones (cid : String) (m s : Int) : List Zone → Option (List Zone)
  | [] => none
  | z :: rest =>
    match updCh cid m s z.channels with
    | some cs => some ({ z with channels := cs } :: rest)
    | none => (updZones cid m s rest).map (fun l => z :: l)

/-- The loop over an installation's groups. -/
def updGroups (cid : String) (m s : Int) : List Group → Option (List Group)
  | [] => none
  | g :: rest =>
    match updZones cid m s g.zones with
    | some zs => some ({ g with zones := zs } :: rest)
    | none => (updGroups cid m s rest).map (fun l => g :: l)

/-- All channels of a zone list in scan order. -/
def flatZ : List Zone → List Channel
  | [] => []
  | z :: rest => z.channels ++ flatZ rest

/-- All channels of a group list in scan order. -/
def flatG : List Group → List Channel
  | [] => []
  | g :: rest => flatZ g.zones ++ flatG rest

theorem flatZ_nil : flatZ [] = [] := rfl

theorem flatZ_cons (z : Zone) (rest : List Zone) :
    flatZ (z :: rest) = z.channels ++ flatZ rest := rfl

theorem flatG_nil : flatG [] = [] := rfl

theorem flatG_cons (g : Group) (rest : List Group) :
    flatG (g :: rest) = flatZ g.zones ++ flatG rest := rfl

/-- The channel tree of an installation, flattened in scan order. -/
def Installation.allChannels (i : Installation) : List Channel := flatG i.groups

/-- Whether the installation's tree contains a channel with the given id. -/
def instHasChannel (i : Installation) (cid : String) : Bool :=
  i.allChannels.any fun c => c.id == cid

/-- The first channel with the matching id was overwritten in place and
every other channel is untouched. -/
def FirstUpd (cid : String) (m s : Int) (l l' : List Channel) : Prop :=
  ∃ pre ch post,
    l = pre ++ ch :: post ∧
    (∀ c ∈ pre, (c.id == cid) = false) ∧
    (ch.id == cid) = true ∧
    l' = pre ++ { ch with energy_level := m, target_temperature := s } :: post

theorem updCh_none_iff (cid : String) (m s : Int) (l : List Channel) :
    updCh cid m s l = none ↔ ∀ c ∈ l, (c.id == cid) = false := by
  induction l with
  | nil => simp [updCh]
  | cons ch rest ih =>
    cases h : (ch.id == cid) with
    | true =>
      constructor
      · intro hnone
        rw [updCh, if_pos h] at hnone
        exact absurd hnone (by simp)
      · intro hall
        have hh := hall ch (List.mem_cons_self ch rest)
        rw [h] at hh
        exact absurd hh (by simp)
    | false =>
      rw [updCh, if_neg (by simp [h]), Option.map_eq_none', ih]
      constructor
      · intro hall c hmem
        rcases List.mem_cons.mp hmem with rfl | hmem'
        · exact h
        · exact hall c hmem'
      · intro hall c hmem
        exact hall c (List.mem_cons_of_mem _ hmem)

theorem updCh_some_firstUpd (cid : String) (m s : Int) (l : List Channel) :
    ∀ l', updCh cid m s l = some l' → FirstUpd cid m s l l' := by
  induction l with
  | nil => intro l' h; simp [updCh] at h
  | cons ch rest ih =>
    intro l' h
    cases hc : (ch.id == cid) with
    | true =>
      rw [updCh, if_pos hc] at h
      injection h with h'
      exact ⟨[], ch, rest, rfl, by simp, hc, h'.symm⟩
    | false =>
      rw [updCh, if_neg (by simp [hc])] at h
      rw [Option.map_eq_some'] at h
      obtain ⟨l0, h0, rfl⟩ := h
      obtain ⟨pre, cch, post, hEq, hPre, hMatch, hUpd⟩ := ih l0 h0
      refine ⟨ch :: pre, cch, post, by rw [List.cons_append, ← hEq], ?_, hMatch,
        by rw [List.cons_append, ← hUpd]⟩
      intro c hmem
      rcases List.mem_cons.mp hmem with rfl | hmem'
      · exact hc
      · exact hPre c hmem'

theorem updZones_none_iff (cid : String) (m s : Int) (zs : List Zone) :
    updZones cid m s zs = none ↔ ∀ c ∈ flatZ zs, (c.id == cid) = false := by
  induction zs with
  | nil => simp [updZones, flatZ]
  | cons z rest ih =>
    cases hc : updCh cid m s z.channels with
    | some cs =>
      constructor
      · intro h
        rw [updZones, hc] at h
        exact absurd h (by simp)
      · intro hall
        have h1 : ∀ c ∈ z.channels, (c.id == cid) = false := by
          intro c hmem
          exact hall c (by rw [flatZ_cons]; exact List.mem_append.mpr (Or.inl hmem))
        have h2 := (updCh_none_iff cid m s z.channels).mpr h1
        rw [h2] at hc
        exact absurd hc (by simp)
    | none =>
      have hz := (updCh_none_iff cid m s z.channels).mp hc
      constructor
      · intro h
        rw [updZones, hc, Option.map_eq_none'] at h
        intro c hmem
        rw [flatZ_cons] at hmem
        rcases List.mem_append.mp hmem with h1 | h2
        · exact hz c h1
        · exact (ih.mp h) c h2
      · intro hall
        rw [updZones, hc, Option.map_eq_none', ih]
        intro c hmem
        exact hall c (by rw [flatZ_cons]; exact List.mem_append.mpr (Or.inr hmem))

theorem updZones_some_firstUpd (cid : String) (m s : Int) (zs : List Zone) :
    ∀ zs', updZones cid m s zs = some zs' →
      FirstUpd cid m s (flatZ zs) (flatZ zs') := by
  induction zs with
  | nil => intro zs' h; simp [updZones] at h
  | cons z rest ih =>
    intro zs' h
    cases hc : updCh cid m s z.channels with
    | some cs =>
      rw [updZones, hc] at h
      injection h with h'
      subst h'
      obtain ⟨pre, ch, post, hEq, hPre, hMatch, hUpd⟩ :=
        updCh_some_firstUpd cid m s z.channels cs hc
      refine ⟨pre, ch, post ++ flatZ rest, ?_, hPre, hMatch, ?_⟩
      · rw [flatZ_cons, hEq]
        simp [List.append_assoc]
      · rw [flatZ_cons]
        show cs ++ flatZ rest = _
        rw [hUpd]
        simp [List.append_assoc]
    | none =>
      have hz := (updCh_none_iff cid m s z.channels).mp hc
      rw [updZones, hc, Option.map_eq_some'] at h
      obtain ⟨zs0, h0, rfl⟩ := h
      obtain ⟨pre, ch, post, hEq, hPre, hMatch, hUpd⟩ := ih zs0 h0
      refine ⟨z.channels ++ pre, ch, post, ?_, ?_, hMatch, ?_⟩
      · rw [flatZ_cons, hEq]
        simp [List.append_assoc]
      · intro c hmem
        rcases List.mem_append.mp hmem with h1 | h2
        · exact hz c h1
        · exact hPre c h2
      · rw [flatZ_cons, hUpd]
        simp [List.append_assoc]

theorem updGroups_none_iff (cid : String) (m s : Int) (gs : List Group) :
    updGroups cid m s gs = none ↔ ∀ c ∈ flatG gs, (c.id == cid) = false := by
  induction gs with
  | nil => simp [updGroups, flatG]
  | cons g rest ih =>
    cases hc : updZones cid m s g.zones with
    | some zs =>
      constructor
      · intro h
        rw [updGroups, hc] at h
        exact absurd h (by simp)
      · intro hall
        have h1 : ∀ c ∈ flatZ g.zones, (c.id == cid) = false := by
          intro c hmem
          exact hall c (by rw [flatG_cons]; exact List.mem_append.mpr (Or.inl hmem))
        have h2 := (updZones_none_iff cid m s g.zones).mpr h1
        rw [h2] at hc
        exact absurd hc (by simp)
    | none =>
      have hz := (updZones_none_iff cid m s g.zones).mp hc
      constructor
      · intro h
        rw [updGroups, hc, Option.map_eq_none'] at h
        intro c hmem
        rw [flatG_cons] at hmem
        rcases List.mem_append.mp hmem with h1 | h2
        · exact hz c h1
        · exact (ih.mp h) c h2
      · intro hall
        rw [updGroups, hc, Option.map_eq_none', ih]
        intro c hmem
        exact hall c (by rw [flatG_cons]; exact List.mem_append.mpr (Or.inr hmem))

theorem updGroups_some_firstUpd (cid : String) (m s : Int) (gs : List Group) :
    ∀ gs', updGroups cid m s gs = some gs' →
      FirstUpd cid m s (flatG gs) (flatG gs') := by
  induction gs with
  | nil => intro gs' h; simp [updGroups] at h
  | cons g rest ih =>
    intro gs' h
    cases hc : updZones cid m s g.zones with
    | some zs =>
      rw [updGroups, hc] at h
      injection h with h'
      subst h'
      obtain ⟨pre, ch, post, hEq, hPre, hMatch, hUpd⟩ :=
        updZones_some_firstUpd cid m s g.zones zs hc
      refine ⟨pre, ch, post ++ flatG rest, ?_, hPre, hMatch, ?_⟩
      · rw [flatG_cons, hEq]
        simp [List.append_assoc]
      · rw [flatG_cons]
        show flatZ zs ++ flatG rest = _
        rw [hUpd]
        simp [List.append_assoc]
    | none =>
      have hz := (updZones_none_iff cid m s g.zones).mp hc
      rw [updGroups, hc, Option.map_eq_some'] at h
      obtain ⟨gs0, h0, rfl⟩ := h
      obtain ⟨pre, ch, post, hEq, hPre, hMatch, hUpd⟩ := ih gs0 h0
      refine ⟨flatZ g.zones ++ pre, ch, post, ?_, ?_, hMatch, ?_⟩
      · rw [flatG_cons, hEq]
        simp [List.append_assoc]
      · intro c hmem
        rcases List.mem_append.mp hmem with h1 | h2
        · exact hz c h1
        · exact hPre c h2
      · rw [flatG_cons, hUpd]
        simp [List.append_assoc]

structure ChannelPayload where
  channel_id : String
  install_id : String
  mode_used : Int
  setpoint_used : Int
deriving DecidableEq, Repr

/-- MqttClient.update_channel: locate the installation by unique (raising
MqttClientError when absent), scan groups, zones and channels for the channel
id, overwrite energy_level and target_temperature on the first match, publish
once and return; raise MqttClientError when the scan finds no channel.  The
result carries the raised error or unit, the installations list after the
call, and the number of publish_updates notifications. -/
def update_channel (installs : List Installation) (p : ChannelPayload) :
    Except String Unit × List Installation × Nat :=
  match findSplit p.install_id installs with
  | none => (Except.error ("No installation found for id " ++ p.install_id), installs, 0)
  | some (pre, inst, post) =>
    match updGroups p.channel_id p.mode_used p.setpoint_used inst.groups with
    | some gs => (Except.ok (), pre ++ { inst with groups := gs } :: post, 1)
    | none => (Except.error ("No channel found for id " ++ p.channel_id), installs, 0)

structure LivePayload where
  install_id : String
  pumpOn : Int
  mixed_circuit1_setpoint : Int
  mixed_circuit1_supply : Int
  mixed_circuit1_return : Int
  mixed_circuit1_opening : Int
deriving DecidableEq, Repr

/-- MqttClient.update_live_data: locate the installation by unique (raising
MqttClientError when absent), overwrite its five live-telemetry fields in
place and publish once. -/
def update_live_data (installs : List Installation) (p : LivePayload) :
    Except String Unit × List Installation × Nat :=
  match findSplit p.install_id installs with
  | none => (Except.error ("No installation found for id " ++ p.install_id), installs, 0)
  | some (pre, inst, post) =>
    (Except.ok (),
      pre ++ { inst with
        pumpOn := p.pumpOn,
        mixed_circuit1_setpoint := p.mixed_circuit1_setpoint,
        mixed_circuit1_supply := p.mixed_circuit1_supply,
        mixed_circuit1_return := p.mixed_circuit1_return,
        mixed_circuit1_opening := p.mixed_circuit1_opening } :: post,
      1)

/-- C3: when the first installation matching the payload's install_id exists
and its tree holds a channel with the payload's channel_id, update_channel
returns successfully with exactly one notification, keeps every other
installation (the surrounding prefix and suffix) and every other field of the
matched installation unchanged, and rewrites the channel tree so that exactly
the first matching channel has its energy_level and target_temperature
overwritten; when no installation or no channel matches, it raises, fires
zero notifications and leaves the installations list unmodified. -/
theorem update_channel_spec (installs : List Installation) (p : ChannelPayload) :
    (∀ pre inst post,
        findSplit p.install_id installs = some (pre, inst, post) →
        instHasChannel inst p.channel_id = true →
        ∃ gs,
          installs = pre ++ inst :: post ∧
          (inst.unique == p.install_id) = true ∧
          update_channel installs p =
            (Except.ok (), pre ++ { inst with groups := gs } :: post, 1) ∧
          FirstUpd p.channel_id p.mode_used p.setpoint_used
            (flatG inst.groups) (flatG gs)) ∧
    ((findSplit p.install_id installs = none ∨
        ∃ pre inst post,
          findSplit p.install_id installs = some (pre, inst, post) ∧
          instHasChannel inst p.channel_id = false) →
      ∃ msg, update_channel installs p = (Except.error msg, installs, 0)) := by
  constructor
  · intro pre inst post hfind hhas
    obtain ⟨hl, hpre, hm⟩ := findSplit_some_eq p.install_id installs pre inst post hfind
    cases hg : updGroups p.channel_id p.mode_used p.setpoint_used inst.groups with
    | none =>
      have hnone := (updGroups_none_iff p.channel_id p.mode_used p.setpoint_used
        inst.groups).mp hg
      rw [instHasChannel, List.any_eq_true] at hhas
      obtain ⟨c, hcm, hcid⟩ := hhas
      have := hnone c hcm
      rw [this] at hcid
      exact absurd hcid (by simp)
    | some gs =>
      refine ⟨gs, hl, hm, ?_, ?_⟩
      · simp only [update_channel, hfind, hg]
      · exact updGroups_some_firstUpd p.channel_id p.mode_used p.setpoint_used
          inst.groups gs hg
  · intro herr
    rcases herr with hnone | ⟨pre, inst, post, hfind, hhas⟩
    · exact ⟨"No installation found for id " ++ p.install_id,
        by simp only [update_channel, hnone]⟩
    · have hg : updGroups p.channel_id p.mode_used p.setpoint_used inst.groups = none := by
        rw [updGroups_none_iff]
        intro c hmem
        rw [instHasChannel, List.any_eq_false] at hhas
        have := hhas c hmem
        simpa using this
      exact ⟨"No channel found for id " ++ p.channel_id,
        by simp only [update_channel, hfind, hg]⟩

/-- C6: when the payload's install_id matches no installation's unique,
update_live_data raises, fires zero notifications and leaves every
installation unmodified; when the first match exists, it overwrites exactly
the five live-telemetry fields of that installation (every other field and
every other installation unchanged) and publishes exactly once. -/
theorem update_live_data_spec (installs : List Installation) (p : LivePayload) :
    ((∀ i ∈ installs, (i.unique == p.install_id) = false) →
      ∃ msg, update_live_data installs p = (Except.error msg, installs, 0)) ∧
    (∀ pre inst post,
        findSplit p.install_id installs = some (pre, inst, post) →
        installs = pre ++ inst :: post ∧
        (inst.unique == p.install_id) = true ∧
        update_live_data installs p =
          (Except.ok (),
            pre ++ { inst with
              pumpOn := p.pumpOn,
              mixed_circuit1_setpoint := p.mixed_circuit1_setpoint,
              mixed_circuit1_supply := p.mixed_circuit1_supply,
              mixed_circuit1_return := p.mixed_circuit1_return,
              mixed_circuit1_opening := p.mixed_circuit1_opening } :: post,
            1)) := by
  constructor
  · intro hall
    have hnone := (findSplit_none_iff p.install_id installs).mpr hall
    exact ⟨"No installation found for id " ++ p.install_id,
      by simp only [update_live_data, hnone]⟩
  · intro pre inst post hfind
    obtain ⟨hl, hpre, hm⟩ := findSplit_some_eq p.install_id installs pre inst post hfind
    exact ⟨hl, hm, by simp only [update_live_data, hfind]⟩

/-! ### Concrete sample data for the C3 and C6 witnesses -/

def sp0 : Setpoints :=
  { cooling := { normal := 20, reduced := 22 },
    heating := { normal := 21, reduced := 19, standby := 10 },
    min := 10, max := 30 }

def ch1 : Channel :=
  { id := "c1", target_temperature := 20, current_temperature := 21,
    energy_level := 1, operating_mode := 0, humidity := 40, demand := 0,
    setpoints := sp0 }

def z1 : Zone := { id := "z1", name := "Living", number := 1, channels := [ch1] }

def g1 : Group := { id := "g1", group_name := "Ground", zones := [z1] }

def inst1 : Installation :=
  { id := "i1", unique := "u1", global_energy_level := 0, connected := true,
    operating_mode := 1, groups := [g1], outside_temp := 9,
    outsideTempFiltered := 10, pumpOn := 0, mixed_circuit1_setpoint := 0,
    mixed_circuit1_supply := 0, mixed_circuit1_return := 0,
    mixed_circuit1_opening := 0 }

def pay1 : ChannelPayload :=
  { channel_id := "c1", install_id := "u1", mode_used := 2, setpoint_used := 22 }

def payNo : LivePayload :=
  { install_id := "zz", pumpOn := 1, mixed_circuit1_setpoint := 33,
    mixed_circuit1_supply := 34, mixed_circuit1_return := 28,
    mixed_circuit1_opening := 50 }

/-- C3 witness: on a one-installation list whose single channel matches, the
update succeeds with one notification and the first-match rewrite. -/
theorem update_channel_spec_witness :
    ∃ gs,
      [inst1] = [] ++ inst1 :: [] ∧
      (inst1.unique == pay1.install_id) = true ∧
      update_channel [inst1] pay1 =
        (Except.ok (), [] ++ { inst1 with groups := gs } :: [], 1) ∧
      FirstUpd pay1.channel_id pay1.mode_used pay1.setpoint_used
        (flatG inst1.groups) (flatG gs) :=
  (update_channel_spec [inst1] pay1).1 [] inst1 [] (by decide) (by decide)

/-- C6 witness: an unknown install_id raises, fires no notification and
leaves the list unmodified. -/
theorem update_live_data_spec_witness :
    ∃ msg, update_live_data [inst1] payNo = (Except.error msg, [inst1], 0) :=
  (update_live_data_spec [inst1] payNo).1 (by decide)

/-! ## C5: set_user carry-over of live telemetry (MqttClient.py lines
386-405, update_installations lines 345-348, set_installations lines 335-343,
set_install_id lines 150-161)

A raw install descriptor as it arrives in user["installs"]: optional keys are
modelled as Option.  user_heatcool stands for install["user"]["heatcool_auto_01"]
(absent when either key is missing). -/

structure RawInstall where
  idStr : String
  unique : String
  hash : Option String
  groups : Option (List Group)
  user_heatcool : Option Int
  operating_mode : Option Int
  global_energy_level : Int
  connected : Bool
  outside_temp : Int
  outsideTempFiltered : Int
  pumpOn : Option Int
  mixed_circuit1_setpoint : Option Int
  mixed_circuit1_supply : Option Int
  mixed_circuit1_return : Option Int
  mixed_circuit1_opening : Option Int
deriving DecidableEq, Repr

structure UserData where
  installs : Option (List RawInstall)
  defaultInstall : String
deriving DecidableEq, Repr

structure CurrentInstallation where
  id : Option String
  unique : Option String
  hash : Option String
deriving DecidableEq, Repr

/-- The client fields involved in the user/installations update path. -/
structure ClientModel where
  user : Option UserData
  installations : Option (List Installation)
  current_installation : CurrentInstallation
  last_operating_mode : Option Int
  last_pumpOn : Int
  last_mc1_setpoint : Int
  last_mc1_supply : Int
  last_mc1_return : Int
  last_mc1_opening : Int
  notifications : Nat
deriving DecidableEq, Repr

/-- Modelled from the spec: parse_installations lives in the handlers module,
which is not under src.  Per the spec it parses raw directory data into the
Installation/Group/Zone/Channel tree, injecting the carried-over operating
mode and live-telemetry defaults into fields the raw payload does not carry;
the rebuild is a full replace, not a merge. -/
def parseOne (lastMode : Option Int)
    (lastPump lastSet lastSup lastRet lastOpen : Int) (r : RawInstall) :
    Installation :=
  { id := r.idStr
    unique := r.unique
    global_energy_level := r.global_energy_level
    connected := r.connected
    operating_mode := r.operating_mode.getD (lastMode.getD 0)
    groups := r.groups.getD []
    outside_temp := r.outside_temp
    outsideTempFiltered := r.outsideTempFiltered
    pumpOn := r.pumpOn.getD lastPump
    mixed_circuit1_setpoint := r.mixed_circuit1_setpoint.getD lastSet
    mixed_circuit1_supply := r.mixed_circuit1_supply.getD lastSup
    mixed_circuit1_return := r.mixed_circuit1_return.getD lastRet
    mixed_circuit1_opening := r.mixed_circuit1_opening.getD lastOpen }

def parse_installations (raw : List RawInstall) (lastMode : Option Int)
    (lastPump lastSet lastSup lastRet lastOpen : Int) : List Installation :=
  raw.map (parseOne lastMode lastPump lastSet lastSup lastRet lastOpen)

/-- MqttClient.update_installations: rebuild self.installations through
parse_installations with the carried-over defaults, then publish once. -/
def update_installations (m : ClientModel) (installs : List RawInstall) : ClientModel :=
  { m with
    installations := some (parse_installations installs m.last_operating_mode
      m.last_pumpOn m.last_mc1_setpoint m.last_mc1_supply m.last_mc1_return
      m.last_mc1_opening),
    notifications := m.notifications + 1 }

/-- The loop of set_install_id over user["installs"]: first install whose
unique equals defaultInstall. -/
def findDefault (u : String) : List RawInstall → Option RawInstall
  | [] => none
  | r :: rest => if r.unique == u then some r else findDefault u rest

/-- MqttClient.set_install_id (self.user is always set on this path). -/
def set_install_id (m : ClientModel) : ClientModel :=
  match m.user with
  | none => m
  | some u =>
    match findDefault u.defaultInstall (u.installs.getD []) with
    | some r =>
      { m with current_installation :=
          { id := some r.idStr, unique := some r.unique, hash := r.hash } }
    | none => m

/-- MqttClient.set_installations: rebuild only when the raw list is non-empty
and its first entry carries a non-empty groups key, then recompute the
current installation. -/
def set_installations (m : ClientModel) (installs : List RawInstall) : ClientModel :=
  match installs with
  | [] => m
  | r :: _ =>
    match r.groups with
    | some (_ :: _) => set_install_id (update_installations m installs)
    | _ => m

/-- The first conditional of set_user: remember the operating-mode hint of
the first install when present. -/
def remember_operating_mode (m : ClientModel) (installs : List RawInstall) : ClientModel :=
  match installs with
  | [] => m
  | r :: _ =>
    match r.user_heatcool with
    | some v => { m with last_operating_mode := some v }
    | none => m

/-- The second conditional of set_user: when self.installations is not None,
snapshot the live-telemetry fields of installations[0] as the carry-over
defaults.  Indexing [0] on an empty list raises IndexError, modelled as
Except.error. -/
def snapshot_telemetry (m : ClientModel) : Except String ClientModel :=
  match m.installations with
  | none => Except.ok m
  | some [] => Except.error "IndexError: installations is empty"
  | some (i :: _) =>
    Except.ok
      { m with
        last_pumpOn := i.pumpOn,
        last_mc1_setpoint := i.mixed_circuit1_setpoint,
        last_mc1_supply := i.mixed_circuit1_supply,
        last_mc1_return := i.mixed_circuit1_return,
        last_mc1_opening := i.mixed_circuit1_opening }

/-- MqttClient.set_user: store the user; when the installs key is present,
remember the operating-mode hint, snapshot current live telemetry, and hand
the raw installs to set_installations. -/
def set_user (m : ClientModel) (u : UserData) : Except String ClientModel :=
  match u.installs with
  | none => Except.ok { m with user := some u }
  | some installs =>
    match snapshot_telemetry (remember_operating_mode { m with user := some u } installs) with
    | Except.error e => Except.error e
    | Except.ok ms => Except.ok (set_installations ms installs)

theorem remember_operating_mode_installations (m : ClientModel)
    (installs : List RawInstall) :
    (remember_operating_mode m installs).installations = m.installations := by
  unfold remember_operating_mode
  split
  · rfl
  · split
    · rfl
    · rfl

theorem set_install_id_installations (m : ClientModel) :
    (set_install_id m).installations = m.installations := by
  unfold set_install_id
  split
  · rfl
  · split
    · rfl
    · rfl

theorem set_installations_rebuild (m : ClientModel) (r : RawInstall)
    (rs : List RawInstall) (g : Group) (gs : List Group)
    (hg : r.groups = some (g :: gs)) :
    set_installations m (r :: rs) = set_install_id (update_installations m (r :: rs)) := by
  simp only [set_installations, hg]

/-- C5: after a first set_user produced a non-empty installations list, a
second set_user whose user carries a rebuildable installs list (non-empty,
first entry with non-empty groups) first snapshots the five live-telemetry
fields of the current first installation and passes them to the rebuild, so
every rebuilt installation whose raw payload lacks a telemetry field carries
forward the previous value of that field. -/
theorem set_user_carry_over (m0 m1 : ClientModel) (u1 u2 : UserData)
    (i : Installation) (rest : List Installation) (r : RawInstall)
    (rs : List RawInstall)
    (h1 : set_user m0 u1 = Except.ok m1)
    (h2 : m1.installations = some (i :: rest))
    (h3 : u2.installs = some (r :: rs))
    (h4 : ∃ g gs, r.groups = some (g :: gs)) :
    ∃ m2 lastMode,
      set_user m1 u2 = Except.ok m2 ∧
      m2.installations = some (parse_installations (r :: rs) lastMode
        i.pumpOn i.mixed_circuit1_setpoint i.mixed_circuit1_supply
        i.mixed_circuit1_return i.mixed_circuit1_opening) ∧
      ∀ k raw, (r :: rs).get? k = some raw →
        ∃ inst,
          (parse_installations (r :: rs) lastMode i.pumpOn
            i.mixed_circuit1_setpoint i.mixed_circuit1_supply
            i.mixed_circuit1_return i.mixed_circuit1_opening).get? k = some inst ∧
          (raw.pumpOn = none → inst.pumpOn = i.pumpOn) ∧
          (raw.mixed_circuit1_setpoint = none →
            inst.mixed_circuit1_setpoint = i.mixed_circuit1_setpoint) ∧
          (raw.mixed_circuit1_supply = none →
            inst.mixed_circuit1_supply = i.mixed_circuit1_supply) ∧
          (raw.mixed_circuit1_return = none →
            inst.mixed_circuit1_return = i.mixed_circuit1_return) ∧
          (raw.mixed_circuit1_opening = none →
            inst.mixed_circuit1_opening = i.mixed_circuit1_opening) := by
  obtain ⟨g, gs, hg⟩ := h4
  have hrom : (remember_operating_mode { m1 with user := some u2 } (r :: rs)).installations
      = some (i :: rest) := by
    rw [remember_operating_mode_installations]
    exact h2
  have hsnap : snapshot_telemetry
      (remember_operating_mode { m1 with user := some u2 } (r :: rs)) =
      Except.ok
        { remember_operating_mode { m1 with user := some u2 } (r :: rs) with
          last_pumpOn := i.pumpOn,
          last_mc1_setpoint := i.mixed_circuit1_setpoint,
          last_mc1_supply := i.mixed_circuit1_supply,
          last_mc1_return := i.mixed_circuit1_return,
          last_mc1_opening := i.mixed_circuit1_opening } := by
    simp only [snapshot_telemetry, hrom]
  have hset : set_user m1 u2 = Except.ok
      (set_installations
        { remember_operating_mode { m1 with user := some u2 } (r :: rs) with
          last_pumpOn := i.pumpOn,
          last_mc1_setpoint := i.mixed_circuit1_setpoint,
          last_mc1_supply := i.mixed_circuit1_supply,
          last_mc1_return := i.mixed_circuit1_return,
          last_mc1_opening := i.mixed_circuit1_opening } (r :: rs)) := by
    simp only [set_user, h3, hsnap]
  refine ⟨_,
    (remember_operating_mode { m1 with user := some u2 } (r :: rs)).last_operating_mode,
    hset, ?_, ?_⟩
  · rw [set_installations_rebuild _ _ _ _ _ hg, set_install_id_installations]
    rfl
  · intro k raw hraw
    refine ⟨parseOne
        (remember_operating_mode { m1 with user := some u2 } (r :: rs)).last_operating_mode
        i.pumpOn i.mixed_circuit1_setpoint i.mixed_circuit1_supply
        i.mixed_circuit1_return i.mixed_circuit1_opening raw,
      ?_, ?_, ?_, ?_, ?_, ?_⟩
    · unfold parse_installations
      rw [List.get?_map, hraw]
      rfl
    · intro hnone; simp [parseOne, hnone]
    · intro hnone; simp [parseOne, hnone]
    · intro hnone; simp [parseOne, hnone]
    · intro hnone; simp [parseOne, hnone]
    · intro hnone; simp [parseOne, hnone]

/-! ### Concrete sample data for the C5 witness -/

def emptyCur : CurrentInstallation := { id := none, unique := none, hash := none }

def m0c : ClientModel :=
  { user := none, installations := none, current_installation := emptyCur,
    last_operating_mode := none, last_pumpOn := 0, last_mc1_setpoint := 0,
    last_mc1_supply := 0, last_mc1_return := 0, last_mc1_opening := 0,
    notifications := 0 }

def rawA : RawInstall :=
  { idStr := "i1", unique := "u1", hash := none, groups := some [g1],
    user_heatcool := none, operating_mode := some 1, global_energy_level := 0,
    connected := true, outside_temp := 5, outsideTempFiltered := 5,
    pumpOn := some 7, mixed_circuit1_setpoint := some 30,
    mixed_circuit1_supply := some 31, mixed_circuit1_return := some 25,
    mixed_circuit1_opening := some 40 }

def rawB : RawInstall :=
  { rawA with
    pumpOn := none
    mixed_circuit1_setpoint := none
    mixed_circuit1_supply := none
    mixed_circuit1_return := none
    mixed_circuit1_opening := none }

def u1c : UserData := { installs := some [rawA], defaultInstall := "u1" }

def u2c : UserData := { installs := some [rawB], defaultInstall := "u1" }

/-- The client state produced by the first set_user call on the fresh model. -/
def m1c : ClientModel :=
  match set_user m0c u1c with
  | Except.ok m => m
  | Except.error _ => m0c

/-- The installation the first call builds from rawA. -/
def i1c : Installation :=
  { id := "i1", unique := "u1", global_energy_level := 0, connected := true,
    operating_mode := 1, groups := [g1], outside_temp := 5,
    outsideTempFiltered := 5, pumpOn := 7, mixed_circuit1_setpoint := 30,
    mixed_circuit1_supply := 31, mixed_circuit1_return := 25,
    mixed_circuit1_opening := 40 }

/-- C5 witness: a concrete pair of successive set_user calls, the second with
a raw payload carrying none of the telemetry fields; the rebuilt installation
keeps the first call's live values. -/
theorem set_user_carry_over_witness :
    ∃ m2 lastMode,
      set_user m1c u2c = Except.ok m2 ∧
      m2.installations = some (parse_installations [rawB] lastMode
        i1c.pumpOn i1c.mixed_circuit1_setpoint i1c.mixed_circuit1_supply
        i1c.mixed_circuit1_return i1c.mixed_circuit1_opening) ∧
      ∀ k raw, [rawB].get? k = some raw →
        ∃ inst,
          (parse_installations [rawB] lastMode i1c.pumpOn
            i1c.mixed_circuit1_setpoint i1c.mixed_circuit1_supply
            i1c.mixed_circuit1_return i1c.mixed_circuit1_opening).get? k = some inst ∧
          (raw.pumpOn = none → inst.pumpOn = i1c.pumpOn) ∧
          (raw.mixed_circuit1_setpoint = none →
            inst.mixed_circuit1_setpoint = i1c.mixed_circuit1_setpoint) ∧
          (raw.mixed_circuit1_supply = none →
            inst.mixed_circuit1_supply = i1c.mixed_circuit1_supply) ∧
          (raw.mixed_circuit1_return = none →
            inst.mixed_circuit1_return = i1c.mixed_circuit1_return) ∧
          (raw.mixed_circuit1_opening = none →
            inst.mixed_circuit1_opening = i1c.mixed_circuit1_opening) :=
  set_user_carry_over m0c m1c u1c u2c i1c [] rawB [] rfl (by decide)
    (by decide) ⟨g1, [], by decide⟩

end RehauMqtt
